import Mathlib

/-!
Shallow embedding of `src/search_engines/rxp.cc` (the Titan IC RXP mpse
adapter of snort3) and proofs about it.

Modelling conventions:
* byte sequences are `List Nat` with each byte `< 256`;
* C++ `std::string` is Lean `String`; a `string*` that may be null is
  `Option String`;
* opaque `void*` handles are `Option Nat` (`none` is the null pointer);
* machine integers are `Nat` with explicit reduction `% 2 ^ 64`
  (for `uint64_t`) or `% 2 ^ 16` (for `uint16_t`) where the source
  stores into a variable of that width;
* undefined behaviour (dereferencing a null pointer) is `Except.error ()`;
* calls into the host agent (`build_tree`, `negate_list`) and into the
  host match callback `mf` are recorded as events in an emitted trace,
  since their effect lives outside this translation unit;
* the device (`rxp.h`, not part of this repository) is modelled at the
  boundary: a search call takes the decoded device response as input and
  the maximum job length as a parameter.
-/

namespace Rxp

instance {ε α : Type} [DecidableEq ε] [DecidableEq α] :
    DecidableEq (Except ε α) := fun a b =>
  match a, b with
  | .ok x, .ok y =>
      if h : x = y then .isTrue (by rw [h]) else .isFalse (by simp [h])
  | .error x, .error y =>
      if h : x = y then .isTrue (by rw [h]) else .isFalse (by simp [h])
  | .ok _, .error _ => .isFalse (by simp)
  | .error _, .ok _ => .isFalse (by simp)

/-- `x % 2^64`, the effect of storing into a `uint64_t`. -/
def u64 (x : Nat) : Nat := x % 2 ^ 64

/-- `x % 2^16`, the effect of storing into a `uint16_t`. -/
def u16 (x : Nat) : Nat := x % 2 ^ 16

/-- C `isalnum` on a byte value promoted to `int` (C locale):
ASCII digits, upper-case letters and lower-case letters. -/
def isalnum (b : Nat) : Bool :=
  (48 ≤ b && b ≤ 57) || (65 ≤ b && b ≤ 90) || (97 ≤ b && b ≤ 122)

/-- Lower-case hexadecimal digit character for `n < 16`,
as printed by `sprintf "%02x"`. -/
def hexDig (n : Nat) : Char :=
  if n < 10 then Char.ofNat (48 + n) else Char.ofNat (87 + n)

/-- The text contributed by one byte of the pattern: alphanumeric bytes
pass through literally, anything else becomes `\xHH` with two lower-case
hex digits (`sprintf(hexbyte, "\\x%02x", pat[i])`). -/
def escByte (b : Nat) : List Char :=
  if isalnum b then [Char.ofNat b]
  else ['\\', 'x', hexDig (b / 16), hexDig (b % 16)]

/-- `rxp_escape_pattern` (rxp.cc:46-72): returns null (`none`) on a
zero-length pattern, otherwise the concatenation of the per-byte texts. -/
def rxp_escape_pattern (pat : List Nat) : Option String :=
  if pat.length = 0 then none
  else some (String.mk (pat.flatMap escByte))

/-- `struct UserCtx` (rxp.cc:74-86): a host handle plus the two host-built
slots.  A slot holds the key the host agent was last asked to build it
from (`user_tree` can be built from the null key, hence `Option (Option Nat)`). -/
structure UserCtx where
  user : Option Nat
  user_tree : Option (Option Nat)
  user_list : Option Nat
deriving Repr, DecidableEq

/-- `UserCtx::UserCtx(void* u)`: both derived slots start null. -/
def UserCtx.mk0 (u : Option Nat) : UserCtx := ⟨u, none, none⟩

/-- `Mpse::PatternDescriptor`: the two flags `add_pattern` reads. -/
structure PatternDescriptor where
  no_case : Bool
  negated : Bool
deriving Repr, DecidableEq

/-- `struct RxpPattern` (rxp.cc:88-113).  `pat` is a `string*` and may be
null; `ruleid` is a `uint16_t`. -/
structure RxpPattern where
  pat : Option String
  ruleid : Nat
  no_case : Bool
  negate : Bool
  userctx : List UserCtx
deriving Repr, DecidableEq

/-- `RxpPattern::RxpPattern` (rxp.cc:101-108): stores the escaped text and
flags and starts with the single context of the first rule.  `ruleid` is
left uninitialised by the constructor and is assigned by `add_pattern`;
we initialise it to 0 (it is always overwritten before use). -/
def RxpPattern.mk0 (pattern : Option String) (d : PatternDescriptor)
    (u : Option Nat) : RxpPattern :=
  ⟨pattern, 0, d.no_case, d.negated, [UserCtx.mk0 u]⟩

/-- The process-wide static counters of `RxpMpse` (rxp.cc:175-181). -/
structure Globals where
  duplicates : Nat
  jobs_submitted : Nat
  match_limit : Nat
  patterns : Nat
  max_pattern_len : Nat
deriving Repr, DecidableEq

def Globals.init : Globals := ⟨0, 0, 0, 0, 0⟩

/-- The per-instance state of one `RxpMpse` (rxp.cc:159-164).
`ruleidtbl` maps a rule id to the position of its pattern in `pats`
(the C++ map stores a pointer to the same object that `pats` holds). -/
structure RxpMpse where
  instance_id : Nat
  pats : List RxpPattern
  ruleidtbl : List (Nat × Nat)
deriving Repr, DecidableEq

/-- Insert-or-assign on an association list, the effect of
`std::map::operator[] = v`. -/
def mapAssign (k v : Nat) : List (Nat × Nat) → List (Nat × Nat)
  | [] => [(k, v)]
  | (k', v') :: rest =>
      if k = k' then (k, v) :: rest else (k', v') :: mapAssign k v rest

/-- The linear scan of `add_pattern` (rxp.cc:232-238): find the index of
the first pattern whose escaped text equals the new one.  Both
`p->pat` and `pattern` are dereferenced for the comparison, so a null
string on either side of a performed comparison is a crash. -/
def findDupIdx (pats : List RxpPattern) (pattern : Option String) :
    Except Unit (Option Nat) :=
  match pats with
  | [] => .ok none
  | p :: rest =>
    match p.pat, pattern with
    | some s, some t =>
      if s = t then .ok (some 0)
      else
        match findDupIdx rest pattern with
        | .ok none => .ok none
        | .ok (some i) => .ok (some (i + 1))
        | .error e => .error e
    | _, _ => .error ()

/-- `RxpMpse::add_pattern` (rxp.cc:226-260).  Returns the updated globals,
the updated instance and the C return value (always 0 when no crash). -/
def add_pattern (g : Globals) (m : RxpMpse) (pat : List Nat)
    (desc : PatternDescriptor) (user : Option Nat) :
    Except Unit (Globals × RxpMpse × Int) :=
  let len := pat.length
  let pattern := rxp_escape_pattern pat
  match findDupIdx m.pats pattern with
  | .error e => .error e
  | .ok (some i) =>
      -- duplicate: append a context to the existing pattern
      let pats' := m.pats.modify
        (fun p => { p with userctx := p.userctx ++ [UserCtx.mk0 user] }) i
      .ok ({ g with duplicates := u64 (g.duplicates + 1) },
           { m with pats := pats' }, 0)
  | .ok none =>
      let patterns' := u64 (g.patterns + 1)
      let rxp_pat := { RxpPattern.mk0 pattern desc user with
                         ruleid := u16 patterns' }
      let g' := { g with
                    patterns := patterns',
                    max_pattern_len :=
                      if len > g.max_pattern_len then len
                      else g.max_pattern_len }
      .ok (g', { m with
                   pats := m.pats ++ [rxp_pat],
                   ruleidtbl := mapAssign rxp_pat.ruleid m.pats.length
                                  m.ruleidtbl }, 0)

/-- `RxpMpse::get_pattern_count` (rxp.cc:143). -/
def get_pattern_count (m : RxpMpse) : Nat := m.pats.length

/-- One call into the host agent made by `user_ctor`, recorded with the
key it was made with (`buildTree none` is the null-keyed call). -/
inductive AgentCall where
  | negateList (key : Nat)
  | buildTree (key : Option Nat)
deriving Repr, DecidableEq

/-- The body of the inner loop of `RxpMpse::user_ctor` (rxp.cc:192-202)
for one context of a pattern with negation flag `negate`: if the handle
is non-null, build a negate list (negated pattern) or a match tree
(otherwise); then unconditionally build a tree from the null key into
the same `user_tree` slot. -/
def ctorCtx (negate : Bool) (c : UserCtx) : UserCtx × List AgentCall :=
  let (c1, t1) :=
    match c.user with
    | some u =>
      if negate then
        ({ c with user_list := some u }, [AgentCall.negateList u])
      else
        ({ c with user_tree := some (some u) }, [AgentCall.buildTree (some u)])
    | none => (c, [])
  ({ c1 with user_tree := some none }, t1 ++ [AgentCall.buildTree none])

/-- The outer-loop body of `user_ctor` for one pattern: process every
context in order, concatenating the agent-call traces. -/
def ctorPattern (p : RxpPattern) : RxpPattern × List AgentCall :=
  let step := p.userctx.map (ctorCtx p.negate)
  ({ p with userctx := step.map Prod.fst }, (step.map Prod.snd).flatten)

/-- `RxpMpse::user_ctor` (rxp.cc:186-204). -/
def user_ctor (m : RxpMpse) : RxpMpse × List AgentCall :=
  let step := m.pats.map ctorPattern
  ({ m with pats := step.map Prod.fst }, (step.map Prod.snd).flatten)

/-- `RxpMpse::prep_patterns` (rxp.cc:262-266): run `user_ctor`, return 0. -/
def prep_patterns (m : RxpMpse) : (RxpMpse × List AgentCall) × Int :=
  (user_ctor m, 0)

/-- One decoded device match record (`rxp_resp.match_data[i]`). -/
structure RxpMatchEntry where
  rule_id : Nat
  start_ptr : Nat
  length : Nat
deriving Repr, DecidableEq

/-- The decoded device response (`struct rxp_response_data`), modelled at
the boundary: `match_count` is the length of `match_data`;
`detected_match_count` may exceed it (device-side match limit). -/
structure RxpResponseData where
  detected_match_count : Nat
  match_data : List RxpMatchEntry
deriving Repr, DecidableEq

def RxpResponseData.match_count (r : RxpResponseData) : Nat :=
  r.match_data.length

/-- A diagnostic emitted through `LogMessage` during `rxp_search`. -/
inductive LogMsg where
  | warnTruncate (n maxLen : Nat)
  | errDecode (ret : Int)
  | warnMatchLimit (detected returned : Nat)
deriving Repr, DecidableEq

/-- One invocation of the host match callback
`mf(c.user, c.user_tree, to, pv, c.user_list)`; the caller-supplied `pv`
is passed through unchanged and the callback's return value is never
read, so recording the other four arguments captures the call. -/
structure CbCall where
  user : Option Nat
  user_tree : Option (Option Nat)
  endOff : Nat
  user_list : Option Nat
deriving Repr, DecidableEq

/-- Dispatch of one match entry (rxp.cc:312-318): compute
`to = start_ptr + length` (here `endOff`), look the pattern up by rule id
(`ruleidtbl[rule_id]`; a missing id makes `operator[]` insert a null
pointer which `pat->userctx` then dereferences: a crash), and call `mf`
once per context in insertion order. -/
def dispatchEntry (m : RxpMpse) (e : RxpMatchEntry) :
    Except Unit (List CbCall) :=
  let endOff := e.start_ptr + e.length
  match m.ruleidtbl.lookup e.rule_id with
  | none => .error ()
  | some idx =>
    match m.pats[idx]? with
    | none => .error ()
    | some pat =>
        .ok (pat.userctx.map (fun c => ⟨c.user, c.user_tree, endOff, c.user_list⟩))

/-- The match loop of `rxp_search` (rxp.cc:311-319) over all entries. -/
def dispatchAll (m : RxpMpse) : List RxpMatchEntry → Except Unit (List CbCall)
  | [] => .ok []
  | e :: rest =>
    match dispatchEntry m e with
    | .error u => .error u
    | .ok c =>
      match dispatchAll m rest with
      | .error u => .error u
      | .ok cs => .ok (c ++ cs)

/-- Everything observable about one `rxp_search` call: the updated
globals, the job submitted to the device, the diagnostics logged, the
callback invocations made, and the C return value. -/
structure SearchResult where
  g : Globals
  job_id : Nat
  job_len : Nat
  subset_id : Nat
  logs : List LogMsg
  calls : List CbCall
  ret : Int
deriving Repr, DecidableEq

/-- `RxpMpse::rxp_search` (rxp.cc:268-325).  The device itself is outside
this repository, so the call takes the device's decoded answer as input:
`decode_ret` is the status of `rxp_get_response_data` and `resp` the
decoded response; `maxJob` is the `RXP_MAX_JOB_LENGTH` constant of
`rxp.h`. -/
def rxp_search (maxJob : Nat) (g : Globals) (m : RxpMpse) (n : Nat)
    (decode_ret : Int) (resp : RxpResponseData) : Except Unit SearchResult :=
  let (n', logs1) :=
    if n > maxJob then (maxJob, [LogMsg.warnTruncate n maxJob]) else (n, [])
  let jobId := u64 (g.jobs_submitted + 1)
  let g1 := { g with jobs_submitted := jobId }
  let logs2 := if decode_ret ≠ 0 then [LogMsg.errDecode decode_ret] else []
  if resp.match_data.length ≠ 0 then
    let over := resp.detected_match_count > resp.match_data.length
    let logs3 := if over then
        [LogMsg.warnMatchLimit resp.detected_match_count
           resp.match_data.length] else []
    let g2 := if over then { g1 with match_limit := u64 (g1.match_limit + 1) }
              else g1
    match dispatchAll m resp.match_data with
    | .error u => .error u
    | .ok calls =>
        .ok ⟨g2, jobId, n', m.instance_id, logs1 ++ logs2 ++ logs3, calls, 0⟩
  else
    .ok ⟨g1, jobId, n', m.instance_id, logs1 ++ logs2, [], 0⟩

/-- The process-wide state: the static counters plus the static
`instances` vector (rxp.cc:171, 180). -/
structure SysState where
  g : Globals
  instances : List RxpMpse
deriving Repr, DecidableEq

def SysState.init : SysState := ⟨Globals.init, []⟩

/-- The `RxpMpse` constructor (rxp.cc:122-128): push the new instance
onto the static vector; its id is the vector's new size (1-based). -/
def newInstance (s : SysState) : SysState :=
  { s with instances :=
      s.instances ++ [⟨s.instances.length + 1, [], []⟩] }

/-- `rxp_init` (rxp.cc:444-450): zero four of the static counters.
`duplicates`, `instances` and `portid` are not touched. -/
def rxp_init (s : SysState) : SysState :=
  { s with g := { s.g with
                    jobs_submitted := 0,
                    match_limit := 0,
                    patterns := 0,
                    max_pattern_len := 0 } }

/-- One `add_pattern` call addressed to an instance of the process. -/
structure AddOp where
  inst : Nat
  bytes : List Nat
  desc : PatternDescriptor
  user : Option Nat
deriving Repr, DecidableEq

/-- Perform one `add_pattern` call on instance `op.inst` of the process
state (calling a method of an instance that does not exist is ruled out
by construction in C++; here it is a crash). -/
def sys_add (s : SysState) (op : AddOp) : Except Unit SysState :=
  match s.instances[op.inst]? with
  | none => .error ()
  | some m =>
    match add_pattern s.g m op.bytes op.desc op.user with
    | .error u => .error u
    | .ok (g', m', _) => .ok ⟨g', s.instances.set op.inst m'⟩

/-- `sys_add` instrumented with a ghost log of the rule identifiers in
assignment order: when the call grows the instance's pattern sequence
(the new-pattern branch), the freshly assigned `ruleid` is appended. -/
def addLogStep (sl : SysState × List Nat) (op : AddOp) :
    Except Unit (SysState × List Nat) :=
  match sys_add sl.1 op with
  | .error u => .error u
  | .ok s' =>
    let oldLen := ((sl.1.instances[op.inst]?).map (·.pats.length)).getD 0
    let newPats := ((s'.instances[op.inst]?).map (·.pats)).getD []
    if oldLen < newPats.length then
      .ok (s', sl.2 ++ (newPats.getLast?.map (·.ruleid)).toList)
    else
      .ok (s', sl.2)

/-- Run a sequence of `add_pattern` calls from a process state,
collecting the assigned rule identifiers in assignment order. -/
def runAddsLog (s : SysState) (ops : List AddOp) :
    Except Unit (SysState × List Nat) :=
  ops.foldlM addLogStep (s, [])

/-! ### The pattern escaper (claim C5) -/

/-- The sixteen lower-case hexadecimal digit characters. -/
def hexLowerChars : List Char := "0123456789abcdef".data

/-- Numeric value of a lower-case hexadecimal digit character. -/
def hexVal (c : Char) : Nat :=
  if c.toNat ≤ 57 then c.toNat - 48 else c.toNat - 87

/-- The spec's description (§4.1) of the text produced for one byte:
an alphanumeric byte passes through literally; any other byte becomes a
fixed-width four-character escape `\xHH` whose two lower-case hex digits
recombine to the byte's value. -/
def specEscapesByte (b : Nat) (cs : List Char) : Prop :=
  (isalnum b = true → cs = [Char.ofNat b]) ∧
  (isalnum b = false → cs.length = 4 ∧ ∃ h l,
      cs = ['\\', 'x', h, l] ∧ h ∈ hexLowerChars ∧ l ∈ hexLowerChars ∧
      16 * hexVal h + hexVal l = b)

lemma hexDig_spec : ∀ n < 16,
    hexDig n ∈ hexLowerChars ∧ hexVal (hexDig n) = n := by decide

lemma escByte_spec (b : Nat) (hb : b < 256) :
    specEscapesByte b (escByte b) := by
  constructor
  · intro hal
    simp [escByte, hal]
  · intro hal
    have hdiv : b / 16 < 16 := Nat.div_lt_of_lt_mul (by omega)
    have hmod : b % 16 < 16 := Nat.mod_lt _ (by omega)
    have h1 := hexDig_spec (b / 16) hdiv
    have h2 := hexDig_spec (b % 16) hmod
    refine ⟨by simp [escByte, hal], hexDig (b / 16), hexDig (b % 16),
      by simp [escByte, hal], h1.1, h2.1, ?_⟩
    rw [h1.2, h2.2]
    exact Nat.div_add_mod b 16

/-- C5: for every non-empty byte sequence of genuine bytes, the escaper
succeeds and produces exactly the concatenation, in input order, of the
per-byte texts, where every non-alphanumeric byte is a four-character
`\xHH` escape with lower-case hex digits recombining to its value and
every alphanumeric byte is the literal character.  (The escaper is a
pure Lean function, so determinism on equal inputs is inherent.) -/
theorem rxp_escape_pattern_correct (pat : List Nat)
    (hne : pat ≠ []) (hbyte : ∀ b ∈ pat, b < 256) :
    ∃ s, rxp_escape_pattern pat = some s ∧
      s.data = pat.flatMap escByte ∧
      ∀ b ∈ pat, specEscapesByte b (escByte b) := by
  refine ⟨String.mk (pat.flatMap escByte), ?_, rfl, ?_⟩
  · unfold rxp_escape_pattern
    simp [List.length_eq_zero, hne]
  · intro b hb
    exact escByte_spec b (hbyte b hb)

/-- Witness for C5 at the concrete bytes `[71, 0]` (`"G"` then NUL). -/
theorem rxp_escape_pattern_correct_witness :
    (([71, 0] : List Nat) ≠ [] ∧ (∀ b ∈ ([71, 0] : List Nat), b < 256)) ∧
    (∃ s, rxp_escape_pattern [71, 0] = some s ∧
      s.data = ([71, 0] : List Nat).flatMap escByte ∧
      ∀ b ∈ ([71, 0] : List Nat), specEscapesByte b (escByte b)) :=
  ⟨⟨by decide, by decide⟩,
   rxp_escape_pattern_correct [71, 0] (by decide) (by decide)⟩

/-! ### Module reset (claim C10) -/

/-- C10: `rxp_init` zeroes the jobs-submitted, match-limit, global
pattern-id and maximum-pattern-length counters and leaves the
duplicate-patterns counter and the registered instance list (with all
their assigned rule identifiers) unchanged. -/
theorem rxp_init_frame (s : SysState) :
    (rxp_init s).g.jobs_submitted = 0 ∧
    (rxp_init s).g.match_limit = 0 ∧
    (rxp_init s).g.patterns = 0 ∧
    (rxp_init s).g.max_pattern_len = 0 ∧
    (rxp_init s).g.duplicates = s.g.duplicates ∧
    (rxp_init s).instances = s.instances :=
  ⟨rfl, rfl, rfl, rfl, rfl, rfl⟩

/-! ### Zero-length patterns (claim C4) -/

/-- C4 is a code bug: `rxp_escape_pattern` does signal the error (it
returns null), but `add_pattern` never checks the result.  On a fresh
instance a zero-length pattern is therefore added anyway — the call
returns 0 (success), the pattern sequence grows to one entry whose
escaped text is null, rule identifier 1 is allocated and the global
pattern counter becomes 1.  On an instance already holding a pattern the
same call dereferences the null string and crashes. -/
theorem add_pattern_len0_bug :
    (add_pattern Globals.init ⟨1, [], []⟩ [] ⟨false, false⟩ (some 7) =
      .ok ({ Globals.init with patterns := 1 },
           ⟨1, [⟨none, 1, false, false, [⟨some 7, none, none⟩]⟩], [(1, 0)]⟩,
           0)) ∧
    (add_pattern { Globals.init with patterns := 1 }
        ⟨1, [⟨some "A", 1, false, false, [⟨some 7, none, none⟩]⟩], [(1, 0)]⟩
        [] ⟨false, false⟩ (some 8) = .error ()) := by
  constructor
  · decide
  · decide

/-! ### Deduplication in `add_pattern` (claim C1) -/

lemma findDupIdx_of_mem (pats : List RxpPattern) (t : String)
    (hsome : ∀ p ∈ pats, p.pat.isSome)
    (hmem : ∃ p ∈ pats, p.pat = some t) :
    ∃ i, findDupIdx pats (some t) = .ok (some i) ∧
      ∃ p, pats[i]? = some p ∧ p.pat = some t := by
  induction pats with
  | nil => simp at hmem
  | cons p rest ih =>
    obtain ⟨s, hs⟩ := Option.isSome_iff_exists.mp (hsome p (by simp))
    by_cases hst : s = t
    · refine ⟨0, ?_, p, by simp, by rw [hs, hst]⟩
      simp [findDupIdx, hs, hst]
    · have hmem' : ∃ q ∈ rest, q.pat = some t := by
        obtain ⟨q, hq, hqt⟩ := hmem
        rcases List.mem_cons.mp hq with rfl | hq'
        · rw [hs] at hqt
          exact absurd (Option.some_injective _ hqt) hst
        · exact ⟨q, hq', hqt⟩
      obtain ⟨i, hfind, hwit⟩ :=
        ih (fun q hq => hsome q (List.mem_cons_of_mem _ hq)) hmem'
      refine ⟨i + 1, ?_, by simpa using hwit⟩
      simp [findDupIdx, hs, hst, hfind]

lemma findDupIdx_of_not_mem (pats : List RxpPattern) (t : String)
    (hsome : ∀ p ∈ pats, p.pat.isSome)
    (hmem : ∀ p ∈ pats, p.pat ≠ some t) :
    findDupIdx pats (some t) = .ok none := by
  induction pats with
  | nil => rfl
  | cons p rest ih =>
    obtain ⟨s, hs⟩ := Option.isSome_iff_exists.mp (hsome p (by simp))
    have hst : s ≠ t := fun h => hmem p (by simp) (by rw [hs, h])
    have := ih (fun q hq => hsome q (List.mem_cons_of_mem _ hq))
      (fun q hq => hmem q (List.mem_cons_of_mem _ hq))
    simp [findDupIdx, hs, hst, this]

/-- C1: when the bytes escape to text already held by a pattern of the
instance, `add_pattern` appends one context (carrying the supplied
handle) to that pattern, bumps the duplicate counter by exactly one,
allocates no rule identifier (global pattern counter and rule-id table
untouched) and leaves the pattern count unchanged; when the escaped text
is new, the pattern count grows by one and the duplicate counter is
untouched.  (The `isSome` hypothesis says no null escaped text is stored,
which holds on every state built from non-empty patterns.) -/
theorem add_pattern_dedup (g : Globals) (m : RxpMpse) (bytes : List Nat)
    (desc : PatternDescriptor) (user : Option Nat) (t : String)
    (hesc : rxp_escape_pattern bytes = some t)
    (hsome : ∀ p ∈ m.pats, p.pat.isSome)
    (hdup : g.duplicates + 1 < 2 ^ 64)
    (hpats : g.patterns + 1 < 2 ^ 64) :
    ((∃ p ∈ m.pats, p.pat = some t) →
      ∃ i g' m', add_pattern g m bytes desc user = .ok (g', m', 0) ∧
        (∃ p, m.pats[i]? = some p ∧ p.pat = some t) ∧
        m'.pats = m.pats.modify
          (fun p => { p with userctx := p.userctx ++ [UserCtx.mk0 user] }) i ∧
        g'.duplicates = g.duplicates + 1 ∧
        g'.patterns = g.patterns ∧
        m'.ruleidtbl = m.ruleidtbl ∧
        get_pattern_count m' = get_pattern_count m) ∧
    ((∀ p ∈ m.pats, p.pat ≠ some t) →
      ∃ g' m', add_pattern g m bytes desc user = .ok (g', m', 0) ∧
        get_pattern_count m' = get_pattern_count m + 1 ∧
        g'.duplicates = g.duplicates ∧
        g'.patterns = g.patterns + 1) := by
  constructor
  · intro hmem
    obtain ⟨i, hfind, hwit⟩ := findDupIdx_of_mem m.pats t hsome hmem
    simp only [add_pattern, hesc, hfind]
    refine ⟨i, _, _, rfl, hwit, rfl, ?_, rfl, rfl, ?_⟩
    · exact Nat.mod_eq_of_lt hdup
    · simp [get_pattern_count]
  · intro hmem
    have hfind := findDupIdx_of_not_mem m.pats t hsome hmem
    simp only [add_pattern, hesc, hfind]
    refine ⟨_, _, rfl, ?_, rfl, ?_⟩
    · simp [get_pattern_count]
    · exact Nat.mod_eq_of_lt hpats

/-- The instance used by the C1 witness: it already holds `"GET"`. -/
def wMpse : RxpMpse :=
  ⟨1, [⟨some "GET", 1, false, false, [⟨some 1, none, none⟩]⟩], [(1, 0)]⟩

/-- Witness for C1: adding the bytes of `"GET"` to an instance already
holding escaped text `"GET"`. -/
theorem add_pattern_dedup_witness :
    ∃ i g' m',
      add_pattern { Globals.init with patterns := 1 } wMpse [71, 69, 84]
        ⟨false, false⟩ (some 2) = .ok (g', m', 0) ∧
      (∃ p, wMpse.pats[i]? = some p ∧ p.pat = some "GET") ∧
      m'.pats = wMpse.pats.modify
        (fun p => { p with userctx := p.userctx ++ [UserCtx.mk0 (some 2)] }) i ∧
      g'.duplicates = { Globals.init with patterns := 1 }.duplicates + 1 ∧
      g'.patterns = { Globals.init with patterns := 1 }.patterns ∧
      m'.ruleidtbl = wMpse.ruleidtbl ∧
      get_pattern_count m' = get_pattern_count wMpse :=
  (add_pattern_dedup { Globals.init with patterns := 1 } wMpse [71, 69, 84]
      ⟨false, false⟩ (some 2) "GET" (by decide) (by decide) (by decide)
      (by decide)).1 (by decide)

/-! ### The match loop of `rxp_search` (claims C2, C7, C8, C9) -/

/-- The pattern a rule id resolves to: the `ruleidtbl[rule_id]`
lookup followed by the pointer to the pattern (an index into `pats`). -/
def lookupPattern (m : RxpMpse) (rid : Nat) : Option RxpPattern :=
  (m.ruleidtbl.lookup rid).bind (fun idx => m.pats[idx]?)

/-- Placeholder pattern for `Option.getD`; never the result of a
successful lookup. -/
def noPattern : RxpPattern := ⟨none, 0, false, false, []⟩

/-- The callback invocations the match loop makes for one entry whose
rule id resolves: one per context, in stored order, with end offset
`start_ptr + length`. -/
def entryCalls (m : RxpMpse) (e : RxpMatchEntry) : List CbCall :=
  ((lookupPattern m e.rule_id).getD noPattern).userctx.map
    (fun c => ⟨c.user, c.user_tree, e.start_ptr + e.length, c.user_list⟩)

lemma dispatchEntry_eq (m : RxpMpse) (e : RxpMatchEntry) :
    dispatchEntry m e =
      match lookupPattern m e.rule_id with
      | none => .error ()
      | some pat => .ok (pat.userctx.map
          (fun c => ⟨c.user, c.user_tree, e.start_ptr + e.length,
                     c.user_list⟩)) := by
  unfold dispatchEntry lookupPattern
  cases m.ruleidtbl.lookup e.rule_id with
  | none => rfl
  | some idx => cases m.pats[idx]? <;> rfl

lemma dispatchAll_ok (m : RxpMpse) (es : List RxpMatchEntry)
    (h : ∀ e ∈ es, (lookupPattern m e.rule_id).isSome) :
    dispatchAll m es = .ok (es.flatMap (entryCalls m)) := by
  induction es with
  | nil => rfl
  | cons e rest ih =>
    obtain ⟨pat, hp⟩ := Option.isSome_iff_exists.mp (h e (by simp))
    have he : dispatchEntry m e = .ok (entryCalls m e) := by
      rw [dispatchEntry_eq, hp]
      simp [entryCalls, hp]
    have hrest := ih (fun x hx => h x (List.mem_cons_of_mem _ hx))
    simp [dispatchAll, he, hrest]

lemma dispatchAll_error (m : RxpMpse) (es : List RxpMatchEntry)
    (h : ∃ e ∈ es, lookupPattern m e.rule_id = none) :
    dispatchAll m es = .error () := by
  induction es with
  | nil => simp at h
  | cons e rest ih =>
    obtain ⟨e₀, he₀, hnone⟩ := h
    rcases List.mem_cons.mp he₀ with rfl | hmem
    · have : dispatchEntry m e₀ = .error () := by
        rw [dispatchEntry_eq, hnone]
      simp [dispatchAll, this]
    · have hrest := ih ⟨e₀, hmem, hnone⟩
      cases hde : dispatchEntry m e with
      | error u => cases u; simp [dispatchAll, hde]
      | ok c => simp [dispatchAll, hde, hrest]

/-- The clamped job length of a search over `n` bytes. -/
def clampLen (maxJob n : Nat) : Nat := if n > maxJob then maxJob else n

/-- The truncation diagnostics of a search over `n` bytes. -/
def truncLogs (maxJob n : Nat) : List LogMsg :=
  if n > maxJob then [LogMsg.warnTruncate n maxJob] else []

/-- The decode diagnostics for a decode status. -/
def decodeLogs (decode_ret : Int) : List LogMsg :=
  if decode_ret ≠ 0 then [LogMsg.errDecode decode_ret] else []

/-- Whether the device reported hitting its match limit on a response
that returned at least one match (the only case the code notices). -/
def overLimit (resp : RxpResponseData) : Prop :=
  resp.match_data.length ≠ 0 ∧
    resp.detected_match_count > resp.match_data.length

instance (resp : RxpResponseData) : Decidable (overLimit resp) :=
  inferInstanceAs (Decidable (_ ∧ _))

/-- The match-limit diagnostics of a search. -/
def limitLogs (resp : RxpResponseData) : List LogMsg :=
  if overLimit resp then
    [LogMsg.warnMatchLimit resp.detected_match_count resp.match_data.length]
  else []

/-- Full characterisation of a non-crashing `rxp_search` call: jobs
counter bumped (the new value is the job id), length clamped, the three
kinds of diagnostics emitted in order, the match-limit counter bumped
exactly when a non-empty response over-detected, and every returned
entry dispatched. -/
lemma rxp_search_eq_ok (maxJob : Nat) (g : Globals) (m : RxpMpse)
    (n : Nat) (decode_ret : Int) (resp : RxpResponseData)
    (hres : ∀ e ∈ resp.match_data, (lookupPattern m e.rule_id).isSome) :
    rxp_search maxJob g m n decode_ret resp = .ok
      ⟨{ g with
           jobs_submitted := u64 (g.jobs_submitted + 1),
           match_limit := if overLimit resp then u64 (g.match_limit + 1)
                          else g.match_limit },
       u64 (g.jobs_submitted + 1),
       clampLen maxJob n,
       m.instance_id,
       truncLogs maxJob n ++ decodeLogs decode_ret ++ limitLogs resp,
       resp.match_data.flatMap (entryCalls m),
       0⟩ := by
  have hall := dispatchAll_ok m resp.match_data hres
  by_cases hlen : resp.match_data.length = 0
  · have hnil : resp.match_data = [] := List.length_eq_zero.mp hlen
    have hov : ¬ overLimit resp := fun h => h.1 hlen
    cases g with
    | mk d j ml p mx =>
      simp [rxp_search, hnil, clampLen, truncLogs, decodeLogs, limitLogs,
        hov]
      constructor <;> split <;> rfl
  · have hov : overLimit resp ↔
        resp.detected_match_count > resp.match_data.length := by
      unfold overLimit
      simp [hlen]
    by_cases hd : resp.detected_match_count > resp.match_data.length
    · simp [rxp_search, hlen, hall, clampLen, truncLogs, decodeLogs,
        limitLogs, hov, hd]
      constructor <;> split <;> rfl
    · cases g with
      | mk dd j ml p mx =>
        simp [rxp_search, hlen, hall, clampLen, truncLogs, decodeLogs,
          limitLogs, hov, hd]
        constructor <;> split <;> rfl

/-- Recogniser for match-limit warnings. -/
def isLimitWarn : LogMsg → Bool
  | .warnMatchLimit _ _ => true
  | _ => false

/-- Recogniser for truncation warnings. -/
def isTruncWarn : LogMsg → Bool
  | .warnTruncate _ _ => true
  | _ => false

lemma countP_isTruncWarn_decodeLogs (d : Int) :
    (decodeLogs d).countP isTruncWarn = 0 := by
  unfold decodeLogs
  split <;> rfl

lemma countP_isTruncWarn_limitLogs (r : RxpResponseData) :
    (limitLogs r).countP isTruncWarn = 0 := by
  unfold limitLogs
  split <;> rfl

lemma countP_isLimitWarn_truncLogs (maxJob n : Nat) :
    (truncLogs maxJob n).countP isLimitWarn = 0 := by
  unfold truncLogs
  split <;> rfl

lemma countP_isLimitWarn_decodeLogs (d : Int) :
    (decodeLogs d).countP isLimitWarn = 0 := by
  unfold decodeLogs
  split <;> rfl

/-- C2: when every entry of the decoded response carries a rule id the
instance has assigned, the search succeeds and the host callback is
invoked exactly once per context of the owning pattern of each entry, in
stored (insertion) order, with end offset `start_ptr + length`; the
dispatched list covers every entry in full (the callback's return value
does not exist in the result at all — the code discards it, so nothing
can stop dispatching early). -/
theorem rxp_search_dispatches_all (maxJob : Nat) (g : Globals)
    (m : RxpMpse) (n : Nat) (decode_ret : Int) (resp : RxpResponseData)
    (hres : ∀ e ∈ resp.match_data, (lookupPattern m e.rule_id).isSome) :
    ∃ r, rxp_search maxJob g m n decode_ret resp = .ok r ∧
      r.calls = resp.match_data.flatMap (entryCalls m) ∧ r.ret = 0 :=
  ⟨_, rxp_search_eq_ok maxJob g m n decode_ret resp hres, rfl, rfl⟩

/-- The instance used by the search witnesses: one pattern (`"GET"`,
rule id 1) shared by two rules. -/
def wMpse2 : RxpMpse :=
  ⟨1, [⟨some "GET", 1, false, false,
        [⟨some 1, none, none⟩, ⟨some 2, none, none⟩]⟩], [(1, 0)]⟩

/-- Witness for C2: one match entry on rule 1 (start 4, length 3) fires
the callback twice — once per context, in order, at end offset 7. -/
theorem rxp_search_dispatches_all_witness :
    ∃ r, rxp_search 100 Globals.init wMpse2 10 0 ⟨1, [⟨1, 4, 3⟩]⟩ =
        .ok r ∧
      r.calls = ([⟨1, 4, 3⟩] : List RxpMatchEntry).flatMap
        (entryCalls wMpse2) ∧ r.ret = 0 :=
  rxp_search_dispatches_all 100 Globals.init wMpse2 10 0 ⟨1, [⟨1, 4, 3⟩]⟩
    (by decide)

/-- C7 (amended): a match entry whose rule identifier was never assigned
makes the whole search crash (`ruleidtbl[rule_id]` silently inserts a
null pattern pointer and `pat->userctx` dereferences it) — the scan is
aborted, but by undefined behaviour, with no diagnostic logged; it is
neither a silent no-op nor a silent continuation. -/
theorem rxp_search_unknown_ruleid_crashes (maxJob : Nat) (g : Globals)
    (m : RxpMpse) (n : Nat) (decode_ret : Int) (resp : RxpResponseData)
    (hmiss : ∃ e ∈ resp.match_data, m.ruleidtbl.lookup e.rule_id = none) :
    rxp_search maxJob g m n decode_ret resp = .error () := by
  obtain ⟨e, he, hn⟩ := hmiss
  have herr : dispatchAll m resp.match_data = .error () :=
    dispatchAll_error m _ ⟨e, he, by simp [lookupPattern, hn]⟩
  have hlen : ¬ resp.match_data.length = 0 := fun h0 =>
    absurd (List.length_eq_zero.mp h0 ▸ he) (List.not_mem_nil e)
  simp [rxp_search, hlen, herr]

/-- Witness for the amended C7: rule id 42 was never assigned. -/
theorem rxp_search_unknown_ruleid_crashes_witness :
    rxp_search 100 Globals.init wMpse2 10 0 ⟨1, [⟨42, 4, 3⟩]⟩ =
      .error () :=
  rxp_search_unknown_ruleid_crashes 100 Globals.init wMpse2 10 0
    ⟨1, [⟨42, 4, 3⟩]⟩ (by decide)

/-- Counterexample to C7 as stated: dispatching a match entry with the
unassigned rule id 99 does not produce any diagnostic — the whole call
crashes (modelled `.error ()`), so no `SearchResult` and no log line
exists; the only `LogMessage` sites of `rxp_search` (truncation, decode
error, match limit) are not on this path. -/
theorem rxp_search_unknown_ruleid_counterexample :
    rxp_search 100 { Globals.init with patterns := 1 } wMpse 5 0
      ⟨1, [⟨99, 2, 3⟩]⟩ = .error () := by decide

/-- C8 (amended): on a response that returned at least one match and
whose detected count exceeds the returned count, the search logs the
match-limit warning exactly once, increments the match-limit counter by
exactly one and still dispatches exactly the returned matches; when the
detected count does not exceed the returned count — and also whenever
the returned count is zero (see the counterexample) — neither happens. -/
theorem rxp_search_match_limit_behaviour (maxJob : Nat) (g : Globals)
    (m : RxpMpse) (n : Nat) (decode_ret : Int) (resp : RxpResponseData)
    (hres : ∀ e ∈ resp.match_data, (lookupPattern m e.rule_id).isSome)
    (hml : g.match_limit + 1 < 2 ^ 64) :
    (resp.match_data ≠ [] ∧
        resp.detected_match_count > resp.match_data.length →
      ∃ r, rxp_search maxJob g m n decode_ret resp = .ok r ∧
        r.g.match_limit = g.match_limit + 1 ∧
        r.logs.countP isLimitWarn = 1 ∧
        r.calls = resp.match_data.flatMap (entryCalls m)) ∧
    (resp.detected_match_count ≤ resp.match_data.length →
      ∃ r, rxp_search maxJob g m n decode_ret resp = .ok r ∧
        r.g.match_limit = g.match_limit ∧
        r.logs.countP isLimitWarn = 0 ∧
        r.calls = resp.match_data.flatMap (entryCalls m)) := by
  have h := rxp_search_eq_ok maxJob g m n decode_ret resp hres
  constructor
  · rintro ⟨hne, hd⟩
    have hov : overLimit resp :=
      ⟨fun h0 => hne (List.length_eq_zero.mp h0), hd⟩
    refine ⟨_, h, ?_, ?_, rfl⟩
    · simp only [if_pos hov]
      exact Nat.mod_eq_of_lt hml
    · simp only [List.countP_append, countP_isLimitWarn_truncLogs,
        countP_isLimitWarn_decodeLogs, limitLogs, if_pos hov]
      rfl
  · intro hd
    have hov : ¬ overLimit resp := fun h0 => absurd h0.2 (by omega)
    refine ⟨_, h, ?_, ?_, rfl⟩
    · simp only [if_neg hov]
    · simp only [List.countP_append, countP_isLimitWarn_truncLogs,
        countP_isLimitWarn_decodeLogs, limitLogs, if_neg hov]
      rfl

/-- Witness for the amended C8 at the spec's concrete scenario: the
device detected 5 matches and returned 3; the counter moves 0 → 1, one
warning is logged, and exactly the 3 returned matches are dispatched
(each firing the two contexts of rule 1). -/
theorem rxp_search_match_limit_witness :
    ∃ r, rxp_search 100 Globals.init wMpse2 10 0
        ⟨5, [⟨1, 0, 2⟩, ⟨1, 1, 2⟩, ⟨1, 2, 2⟩]⟩ = .ok r ∧
      r.g.match_limit = Globals.init.match_limit + 1 ∧
      r.logs.countP isLimitWarn = 1 ∧
      r.calls = ([⟨1, 0, 2⟩, ⟨1, 1, 2⟩, ⟨1, 2, 2⟩] :
        List RxpMatchEntry).flatMap (entryCalls wMpse2) :=
  (rxp_search_match_limit_behaviour 100 Globals.init wMpse2 10 0
      ⟨5, [⟨1, 0, 2⟩, ⟨1, 1, 2⟩, ⟨1, 2, 2⟩]⟩ (by decide) (by decide)).1
    (by decide)

/-- Counterexample to C8 as stated: `detected_match_count = 5` with an
empty returned match list is a response in which detected exceeds
returned, yet the code skips the whole match block: no warning is
logged and the match-limit counter stays 0. -/
theorem rxp_search_zero_returned_counterexample :
    rxp_search 100 Globals.init wMpse 5 0 ⟨5, []⟩ =
      .ok ⟨{ Globals.init with jobs_submitted := 1 }, 1, 5, 1, [], [],
           0⟩ := by decide

/-- C9: a buffer longer than the device's maximum job size is clamped to
exactly that maximum with exactly one truncation warning, and the search
still proceeds, dispatching the matches of the (truncated) scan; at or
below the limit no clamping happens and no truncation warning is
logged. -/
theorem rxp_search_truncation (maxJob : Nat) (g : Globals) (m : RxpMpse)
    (n : Nat) (decode_ret : Int) (resp : RxpResponseData)
    (hres : ∀ e ∈ resp.match_data, (lookupPattern m e.rule_id).isSome) :
    (n > maxJob →
      ∃ r, rxp_search maxJob g m n decode_ret resp = .ok r ∧
        r.job_len = maxJob ∧ r.logs.countP isTruncWarn = 1 ∧
        r.calls = resp.match_data.flatMap (entryCalls m)) ∧
    (n ≤ maxJob →
      ∃ r, rxp_search maxJob g m n decode_ret resp = .ok r ∧
        r.job_len = n ∧ r.logs.countP isTruncWarn = 0 ∧
        r.calls = resp.match_data.flatMap (entryCalls m)) := by
  have h := rxp_search_eq_ok maxJob g m n decode_ret resp hres
  constructor
  · intro hn
    refine ⟨_, h, ?_, ?_, rfl⟩
    · simp [clampLen, hn]
    · simp only [List.countP_append, countP_isTruncWarn_decodeLogs,
        countP_isTruncWarn_limitLogs, truncLogs, if_pos hn]
      rfl
  · intro hn
    have hn' : ¬ n > maxJob := by omega
    refine ⟨_, h, ?_, ?_, rfl⟩
    · simp [clampLen, hn']
    · simp only [List.countP_append, countP_isTruncWarn_decodeLogs,
        countP_isTruncWarn_limitLogs, truncLogs, if_neg hn']
      rfl

/-- Witness for C9: searching 250 bytes against a 100-byte job limit is
clamped to 100 with one truncation warning, and the single returned
match still fires both contexts. -/
theorem rxp_search_truncation_witness :
    ∃ r, rxp_search 100 Globals.init wMpse2 250 0 ⟨1, [⟨1, 4, 3⟩]⟩ =
        .ok r ∧
      r.job_len = 100 ∧ r.logs.countP isTruncWarn = 1 ∧
      r.calls = ([⟨1, 4, 3⟩] : List RxpMatchEntry).flatMap
        (entryCalls wMpse2) :=
  (rxp_search_truncation 100 Globals.init wMpse2 250 0 ⟨1, [⟨1, 4, 3⟩]⟩
    (by decide)).1 (by decide)

/-! ### `prep_patterns` / `user_ctor` (claim C6) -/

lemma ctorCtx_count_one (negate : Bool) (c : UserCtx) :
    ((ctorCtx negate c).2).count (AgentCall.buildTree none) = 1 := by
  rcases hc : c.user with _ | u
  · simp [ctorCtx, hc]
  · cases negate <;> simp [ctorCtx, hc, List.count_cons]

lemma ctorTrace_null_count (negate : Bool) (ctxs : List UserCtx) :
    (((ctxs.map (ctorCtx negate)).map Prod.snd).flatten).count
        (AgentCall.buildTree none) = ctxs.length := by
  induction ctxs with
  | nil => rfl
  | cons c rest ih =>
    simp only [List.map_cons, List.flatten_cons, List.count_append, ih,
      ctorCtx_count_one, List.length_cons]
    omega

lemma ctorCtx_mem_self (negate : Bool) (c : UserCtx) (u : Nat)
    (hu : c.user = some u) :
    (negate = true → AgentCall.negateList u ∈ (ctorCtx negate c).2) ∧
    (negate = false →
      AgentCall.buildTree (some u) ∈ (ctorCtx negate c).2) := by
  cases negate <;> simp [ctorCtx, hu]

/-- C6 (amended): `prep_patterns` runs `user_ctor` and returns 0; the
agent-call trace is the concatenation of the per-pattern traces; for
every pattern the null-keyed default match tree is built once per
RuleContext — i.e. `userctx.length` times per pattern, not exactly once
per pattern — and every context with a non-null handle has had a negate
list built (negated pattern) or a match tree built (otherwise). -/
theorem prep_patterns_builds (m : RxpMpse) :
    (prep_patterns m).2 = 0 ∧
    (prep_patterns m).1.2 =
      (m.pats.map (fun p => (ctorPattern p).2)).flatten ∧
    ∀ p ∈ m.pats,
      ((ctorPattern p).2.count (AgentCall.buildTree none) =
        p.userctx.length) ∧
      (∀ c ∈ p.userctx, ∀ u, c.user = some u →
        (p.negate = true →
          AgentCall.negateList u ∈ (ctorPattern p).2) ∧
        (p.negate = false →
          AgentCall.buildTree (some u) ∈ (ctorPattern p).2)) := by
  refine ⟨rfl, ?_, ?_⟩
  · simp only [prep_patterns, user_ctor, List.map_map]
    rfl
  · intro p _
    refine ⟨ctorTrace_null_count p.negate p.userctx, ?_⟩
    intro c hc u hu
    have hmem : (ctorCtx p.negate c).2 ∈
        (p.userctx.map (ctorCtx p.negate)).map Prod.snd := by
      exact List.mem_map_of_mem _ (List.mem_map_of_mem _ hc)
    have hsub : ∀ a ∈ (ctorCtx p.negate c).2, a ∈ (ctorPattern p).2 := by
      intro a ha
      exact List.mem_flatten.mpr ⟨_, hmem, ha⟩
    obtain ⟨h1, h2⟩ := ctorCtx_mem_self p.negate c u hu
    exact ⟨fun hn => hsub _ (h1 hn), fun hn => hsub _ (h2 hn)⟩

/-- The two-context `"GET"` pattern produced by adding `"GET"` twice. -/
def gPat2 : RxpPattern :=
  ⟨some "GET", 1, false, false,
   [⟨some 1, none, none⟩, ⟨some 2, none, none⟩]⟩

/-- Witness for the amended C6 on the two-context pattern: the null-keyed
default tree is built twice (once per context) and the first context's
match tree is built. -/
theorem prep_patterns_builds_witness :
    ((ctorPattern gPat2).2.count (AgentCall.buildTree none) = 2) ∧
    AgentCall.buildTree (some 1) ∈ (ctorPattern gPat2).2 :=
  ⟨((prep_patterns_builds wMpse2).2.2 gPat2 (by decide)).1,
   (((prep_patterns_builds wMpse2).2.2 gPat2 (by decide)).2
      ⟨some 1, none, none⟩ (by decide) 1 rfl).2 rfl⟩

/-- Counterexample to C6 as stated: adding the bytes of `"GET"` twice
(rules 1 and 2) yields one pattern holding two contexts, and finalizing
issues the null-keyed `build_tree` twice for that single pattern — the
null-handle default tree is not built exactly once per pattern. -/
theorem user_ctor_null_tree_counterexample :
    (add_pattern Globals.init ⟨1, [], []⟩ [71, 69, 84] ⟨false, false⟩
        (some 1) =
      .ok (⟨0, 0, 0, 1, 3⟩, wMpse, 0)) ∧
    (add_pattern ⟨0, 0, 0, 1, 3⟩
        wMpse [71, 69, 84] ⟨false, false⟩ (some 2) =
      .ok (⟨1, 0, 0, 1, 3⟩, wMpse2, 0)) ∧
    wMpse2.pats = [gPat2] ∧
    (ctorPattern gPat2).2.count (AgentCall.buildTree none) = 2 := by
  refine ⟨by decide, by decide, by decide, by decide⟩

/-! ### Rule-identifier assignment across a process (claim C3) -/

lemma range'_one_concat (s L : Nat) :
    List.range' s (L + 1) = List.range' s L ++ [s + L] := by
  induction L generalizing s with
  | zero => simp [List.range'_succ]
  | succ L ih =>
    rw [List.range'_succ, ih (s + 1), List.range'_succ]
    simp [Nat.add_assoc, Nat.add_comm, Nat.add_left_comm]

lemma sys_add_ok_cases (s0 : SysState) (op : AddOp) (s' : SysState)
    (hs : sys_add s0 op = .ok s') :
    ∃ m m', s0.instances[op.inst]? = some m ∧
      s'.instances[op.inst]? = some m' ∧
      ((s'.g.patterns = s0.g.patterns ∧ m'.pats.length = m.pats.length) ∨
       (s'.g.patterns = u64 (s0.g.patterns + 1) ∧
        m'.pats.length = m.pats.length + 1 ∧
        (m'.pats.getLast?.map (·.ruleid)) =
          some (u16 (u64 (s0.g.patterns + 1))))) := by
  unfold sys_add at hs
  split at hs
  · simp at hs
  · rename_i m hi
    split at hs
    · simp at hs
    · rename_i g' m' r ha
      obtain ⟨hlt, -⟩ := List.getElem?_eq_some.mp hi
      simp only [Except.ok.injEq] at hs
      subst hs
      refine ⟨m, m', hi, by simp [List.getElem?_set_self hlt], ?_⟩
      simp only [add_pattern] at ha
      split at ha
      · simp at ha
      · rename_i i hf
        simp only [Except.ok.injEq, Prod.mk.injEq] at ha
        obtain ⟨hg, hm, -⟩ := ha
        subst hg hm
        exact Or.inl ⟨rfl, by simp⟩
      · rename_i hf
        simp only [Except.ok.injEq, Prod.mk.injEq] at ha
        obtain ⟨hg, hm, -⟩ := ha
        subst hg hm
        refine Or.inr ⟨rfl, by simp, ?_⟩
        simp [List.getLast?_concat]

lemma addLogStep_inv (s0 : SysState) (log0 : List Nat) (op : AddOp)
    (s1 : SysState) (log1 : List Nat)
    (h1 : s0.g.patterns = log0.length)
    (h2 : log0 = (List.range' 1 log0.length).map u16)
    (hb : log0.length + 1 < 2 ^ 64)
    (hstep : addLogStep (s0, log0) op = .ok (s1, log1)) :
    s1.g.patterns = log1.length ∧
    log1 = (List.range' 1 log1.length).map u16 ∧
    log1.length ≤ log0.length + 1 := by
  simp only [addLogStep] at hstep
  split at hstep
  · simp at hstep
  · rename_i s' hs
    obtain ⟨m, m', hi, hi', hcase⟩ := sys_add_ok_cases s0 op s' hs
    simp only [hi, hi', Option.map_some', Option.getD_some] at hstep
    rcases hcase with ⟨hp, hlen⟩ | ⟨hp, hlen, hlast⟩
    · rw [hlen] at hstep
      simp only [Nat.lt_irrefl, if_false] at hstep
      simp only [Except.ok.injEq, Prod.mk.injEq] at hstep
      obtain ⟨rfl, rfl⟩ := hstep
      exact ⟨hp.trans h1, h2, by omega⟩
    · rw [hlen, hlast] at hstep
      simp only [Nat.lt_succ_self, if_true, Option.toList_some] at hstep
      simp only [Except.ok.injEq, Prod.mk.injEq] at hstep
      obtain ⟨rfl, rfl⟩ := hstep
      have hpat : u64 (s0.g.patterns + 1) = log0.length + 1 := by
        rw [h1]
        exact Nat.mod_eq_of_lt hb
      refine ⟨by simp [hp, hpat], ?_, by simp⟩
      rw [List.length_append, List.length_cons, List.length_nil]
      rw [range'_one_concat 1 log0.length, List.map_append, ← h2, hpat]
      simp [Nat.add_comm]

lemma runAddsLog_inv (ops : List AddOp) :
    ∀ s0 log0 s log, s0.g.patterns = log0.length →
      log0 = (List.range' 1 log0.length).map u16 →
      log0.length + ops.length < 2 ^ 64 →
      ops.foldlM addLogStep (s0, log0) = .ok (s, log) →
      s.g.patterns = log.length ∧
      log = (List.range' 1 log.length).map u16 := by
  induction ops with
  | nil =>
    intro s0 log0 s log h1 h2 _ hrun
    simp only [List.foldlM_nil] at hrun
    have hrun' : (Except.ok (s0, log0) : Except Unit (SysState × List Nat)) =
        .ok (s, log) := hrun
    simp only [Except.ok.injEq, Prod.mk.injEq] at hrun'
    obtain ⟨rfl, rfl⟩ := hrun'
    exact ⟨h1, h2⟩
  | cons op rest ih =>
    intro s0 log0 s log h1 h2 hb hrun
    simp only [List.foldlM_cons] at hrun
    simp only [List.length_cons] at hb
    cases hstep : addLogStep (s0, log0) op with
    | error u =>
      rw [hstep] at hrun
      have : (Except.error u : Except Unit (SysState × List Nat)) =
          .ok (s, log) := hrun
      simp at this
    | ok sl1 =>
      rw [hstep] at hrun
      have hrun' : rest.foldlM addLogStep sl1 = .ok (s, log) := hrun
      obtain ⟨p1, p2, p3⟩ := addLogStep_inv s0 log0 op sl1.1 sl1.2 h1 h2
        (by omega) (by rw [hstep])
      exact ih sl1.1 sl1.2 s log p1 p2 (by omega) hrun'

/-- C3 (amended): starting from a freshly reset pattern counter, any
sequence of `add_pattern` calls across all instances of the process
assigns, to the calls that introduce new escaped text, rule identifiers
`1, 2, 3, …` in order — strictly increasing and pairwise distinct —
**provided fewer than `2^16` identifiers are assigned**.  The `ruleid`
field is a `uint16_t` fed from a `uint64_t` counter, so the identifier
actually stored is the counter mod `2^16`; past `2^16` new patterns the
identifiers wrap and repeat (see the counterexample). -/
theorem add_pattern_ruleids_monotonic (s0 : SysState) (ops : List AddOp)
    (s : SysState) (log : List Nat)
    (h0 : s0.g.patterns = 0)
    (hops : ops.length < 2 ^ 64)
    (hrun : runAddsLog s0 ops = .ok (s, log))
    (hsmall : log.length < 2 ^ 16) :
    log = List.range' 1 log.length ∧
    log.Pairwise (· < ·) ∧ log.Nodup := by
  obtain ⟨-, hlog⟩ := runAddsLog_inv ops s0 [] s log (by simpa using h0)
    rfl (by simpa using hops) hrun
  have hu : ∀ k ∈ List.range' 1 log.length, u16 k = id k := by
    intro k hk
    obtain ⟨h1k, hk2⟩ := List.mem_range'_1.mp hk
    simp only [u16, id]
    exact Nat.mod_eq_of_lt (by omega)
  have hid : log = List.range' 1 log.length := by
    conv_lhs => rw [hlog]
    rw [List.map_congr_left hu, List.map_id]
  refine ⟨hid, ?_, ?_⟩
  · rw [hid]
    exact List.pairwise_lt_range' 1 log.length
  · rw [hid]
    exact (List.pairwise_lt_range' 1 log.length).imp Nat.ne_of_lt

/-- The two-call run used by the C3 witness. -/
def wOps : List AddOp :=
  [⟨0, [97], ⟨false, false⟩, some 0⟩, ⟨0, [97, 97], ⟨false, false⟩, some 1⟩]

/-- The process state after the two witness calls. -/
def wFinal : SysState :=
  ⟨⟨0, 0, 0, 2, 2⟩,
   [⟨1, [⟨some "a", 1, false, false, [⟨some 0, none, none⟩]⟩,
         ⟨some "aa", 2, false, false, [⟨some 1, none, none⟩]⟩],
     [(1, 0), (2, 1)]⟩]⟩

/-- Witness for the amended C3: two adds with distinct escaped text get
rule ids 1 then 2 — strictly increasing and distinct. -/
theorem add_pattern_ruleids_monotonic_witness :
    ([1, 2] : List Nat) = List.range' 1 ([1, 2] : List Nat).length ∧
    ([1, 2] : List Nat).Pairwise (· < ·) ∧ ([1, 2] : List Nat).Nodup :=
  add_pattern_ruleids_monotonic (newInstance SysState.init) wOps wFinal
    [1, 2] (by decide) (by decide) (by decide) (by decide)

/-! #### The wrap-around counterexample run for C3 -/

/-- `n` copies of the letter `a`. -/
def aStr (n : Nat) : String := String.mk (List.replicate n 'a')

/-- The pattern created by the `j`-th (0-based) unary add. -/
def aPat (j : Nat) : RxpPattern :=
  ⟨some (aStr (j + 1)), u16 (j + 1), false, false, [⟨some j, none, none⟩]⟩

/-- The `j`-th unary `add_pattern` call: `j + 1` bytes `'a'` — all the
escaped texts are pairwise distinct. -/
def unaryOp (j : Nat) : AddOp :=
  ⟨0, List.replicate (j + 1) 97, ⟨false, false⟩, some j⟩

/-- The rule-id table after `k` unary adds. -/
def unaryTbl : Nat → List (Nat × Nat)
  | 0 => []
  | k + 1 => mapAssign (u16 (k + 1)) k (unaryTbl k)

/-- The process state after `k` unary adds on a single fresh instance. -/
def unaryState (k : Nat) : SysState :=
  ⟨⟨0, 0, 0, k, k⟩, [⟨1, (List.range k).map aPat, unaryTbl k⟩]⟩

lemma escByte_a : escByte 97 = ['a'] := by decide

lemma flatMap_replicate_a (n : Nat) :
    (List.replicate n (97 : Nat)).flatMap escByte =
      List.replicate n 'a' := by
  induction n with
  | zero => rfl
  | succ n ih =>
    simp [List.replicate_succ, ih, escByte_a]

lemma escape_replicate_a (n : Nat) :
    rxp_escape_pattern (List.replicate (n + 1) 97) =
      some (aStr (n + 1)) := by
  unfold rxp_escape_pattern aStr
  simp [flatMap_replicate_a]

lemma aStr_inj {m n : Nat} (h : aStr m = aStr n) : m = n := by
  have := congrArg (fun s => s.data.length) h
  simpa [aStr] using this

lemma findDup_aPats (k n : Nat) (hne : ∀ j < k, j + 1 ≠ n) :
    findDupIdx ((List.range k).map aPat) (some (aStr n)) = .ok none := by
  apply findDupIdx_of_not_mem
  · intro p hp
    obtain ⟨j, hj, rfl⟩ := List.mem_map.mp hp
    simp [aPat]
  · intro p hp
    obtain ⟨j, hj, rfl⟩ := List.mem_map.mp hp
    intro hq
    simp only [aPat, Option.some.injEq] at hq
    exact hne j (List.mem_range.mp hj) (aStr_inj hq)

lemma unary_add (k : Nat) (hk : k + 1 < 2 ^ 64) :
    add_pattern ⟨0, 0, 0, k, k⟩ ⟨1, (List.range k).map aPat, unaryTbl k⟩
      (List.replicate (k + 1) 97) ⟨false, false⟩ (some k) =
      .ok (⟨0, 0, 0, k + 1, k + 1⟩,
           ⟨1, (List.range (k + 1)).map aPat, unaryTbl (k + 1)⟩, 0) := by
  have h64 : u64 (k + 1) = k + 1 := Nat.mod_eq_of_lt hk
  have hfind : findDupIdx ((List.range k).map aPat) (some (aStr (k + 1))) =
      .ok none :=
    findDup_aPats k (k + 1) (fun j hj => by omega)
  simp only [add_pattern, escape_replicate_a k, hfind, h64,
    List.length_replicate, List.length_map, List.length_range]
  rw [List.range_succ, List.map_append]
  simp [unaryTbl, RxpPattern.mk0, UserCtx.mk0, aPat, Nat.lt_succ_self, h64]

lemma unary_sys_add (k : Nat) (hk : k + 1 < 2 ^ 64) :
    sys_add (unaryState k) (unaryOp k) = .ok (unaryState (k + 1)) := by
  simp only [sys_add, unaryState, unaryOp]
  simp [unary_add k hk]

lemma unary_step (k : Nat) (hk : k + 1 < 2 ^ 64) :
    addLogStep (unaryState k, (List.range' 1 k).map u16) (unaryOp k) =
      .ok (unaryState (k + 1), (List.range' 1 (k + 1)).map u16) := by
  simp only [addLogStep, unary_sys_add k hk]
  have hold : (unaryState k).instances[(unaryOp k).inst]? =
      some ⟨1, (List.range k).map aPat, unaryTbl k⟩ := rfl
  have hnew : (unaryState (k + 1)).instances[(unaryOp k).inst]? =
      some ⟨1, (List.range (k + 1)).map aPat, unaryTbl (k + 1)⟩ := rfl
  rw [hold, hnew]
  simp only [Option.map_some', Option.getD_some, List.length_map,
    List.length_range, Nat.lt_succ_self, if_true]
  have hlast : ((List.range (k + 1)).map aPat).getLast? = some (aPat k) := by
    rw [List.range_succ, List.map_append]
    exact List.getLast?_concat _
  rw [hlast]
  simp only [Option.map_some', Option.toList_some]
  rw [range'_one_concat 1 k, List.map_append]
  simp [aPat, Nat.add_comm]

lemma unary_run (k : Nat) (hk : k ≤ 2 ^ 17) :
    runAddsLog (newInstance SysState.init) ((List.range k).map unaryOp) =
      .ok (unaryState k, (List.range' 1 k).map u16) := by
  induction k with
  | zero => rfl
  | succ k ih =>
    unfold runAddsLog at ih ⊢
    rw [List.range_succ, List.map_append, List.foldlM_append,
      ih (by omega)]
    have hstep := unary_step k (by norm_num at hk ⊢; omega)
    show (addLogStep (unaryState k, (List.range' 1 k).map u16) (unaryOp k) >>=
        fun b => pure b) = _
    rw [hstep]
    rfl

/-- Counterexample to C3 as stated: run 65537 `add_pattern` calls with
pairwise-distinct escaped texts (`"a"`, `"aa"`, …) from a fresh process
state.  The ghost log of assigned rule identifiers is
`map u16 [1, …, 65537]`: its first element is 1 and — because `ruleid` is
a `uint16_t` — its last element is `65537 % 2^16 = 1` again, so the
assigned identifiers are neither strictly increasing nor pairwise
distinct across the process. -/
theorem add_pattern_ruleid_wrap_counterexample :
    (runAddsLog (newInstance SysState.init)
        ((List.range 65537).map unaryOp)).map Prod.snd =
      .ok ((List.range' 1 65537).map u16) ∧
    ((List.range' 1 65537).map u16).head? = some 1 ∧
    ((List.range' 1 65537).map u16).getLast? = some 1 ∧
    ¬ ((List.range' 1 65537).map u16).Pairwise (· < ·) ∧
    ¬ ((List.range' 1 65537).map u16).Nodup := by
  have hmem : (1 : Nat) ∈ (List.range' 2 65536).map u16 := by
    apply List.mem_map.mpr
    refine ⟨65537, ?_, by decide⟩
    apply List.mem_range'_1.mpr
    omega
  have hsplit : (List.range' 1 65537).map u16 =
      1 :: (List.range' 2 65536).map u16 := by
    rw [List.range'_succ]
    simp [u16]
  refine ⟨?_, ?_, ?_, ?_, ?_⟩
  · rw [unary_run 65537 (by norm_num)]
    rfl
  · rw [hsplit]
    rfl
  · rw [range'_one_concat 1 65536, List.map_append]
    simp only [List.map_cons, List.map_nil]
    rw [List.getLast?_concat]
    decide
  · intro hpw
    rw [hsplit] at hpw
    have := (List.pairwise_cons.mp hpw).1 1 hmem
    omega
  · intro hnd
    rw [hsplit] at hnd
    exact (List.nodup_cons.mp hnd).1 hmem

end Rxp
